import Mathlib

set_option autoImplicit false

/-!
Shallow embedding of `src/elaphe/symbology/util/translation.py`
(module `elaphe.symbology.util.translation`, Python 2).

Modelling conventions:
* Python strings are `List Char` (the module only handles 7-bit data).
* A Python dict built by successive assignments is an association list
  read from the right: a binding added later shadows an earlier one.
* A call to `translate_chars` can return `None` (pending),
  `NotImplemented`, a value, or raise; this is `ResolveResult`.
* Exceptions are split into `TranslationError` instances (caught by the
  driver's `except TranslationError` clause) and all other exceptions
  (`ValueError`, `TypeError`, `IndexError`), which the driver's bare
  `except: raise` clause re-raises unconditionally.
* The mutable `self.code` attribute of `Code128Translation` is threaded
  explicitly: the resolver maps a state and a queue to a new state and
  an outcome.
-/

/-- A Python value produced by a translation run: an integer ordinal, or
an arbitrary replacement value supplied through `on_error` (modelled as
a string, which is what the doctests use). -/
inductive PyVal where
  | int (n : Int)
  | str (s : List Char)
deriving DecidableEq, Repr

/-- Exceptions of the module.  The first four model the
`TranslationError` instances raised at lines 185, 188, 311 and 321 of
`translation.py` (the one at line 321 is unreachable, see
`Code128Translation.translate_chars` below); `valueError` models the
plain `ValueError` raised by `str.index` and by `int(s, 10)`;
`typeError` is raised by the driver when `translate_chars` returns
`NotImplemented`; `indexError` models `chars[0]` on an empty queue. -/
inductive PyExc where
  | unableToTranslate (chars : List Char)
  | notInAllowed (chars : List Char)
  | badEscape (escaped : List Char)
  | notInCodeTable (c : Char)
  | valueError
  | typeError
  | indexError
deriving DecidableEq, Repr

/-- Whether an exception is an instance of `TranslationError`, hence
caught by the driver's `except TranslationError` clause. -/
def PyExc.isTranslationError : PyExc → Bool
  | .unableToTranslate _ => true
  | .notInAllowed _ => true
  | .badEscape _ => true
  | .notInCodeTable _ => true
  | _ => false

/-- The possible outcomes of one `translate_chars` call, as seen by the
driver: a normal return of `None` / `NotImplemented` / a value, or a
raised exception. -/
inductive ResolveResult where
  | pyNone
  | notImplemented
  | val (v : PyVal)
  | exc (e : PyExc)
deriving DecidableEq, Repr

/-- The `on_error` argument of `Translation.translate`: the
`RAISE_ON_ERROR` and `IGNORE_ON_ERROR` singletons, `None` (the
default), or any other value, which is used as a replacement. -/
inductive OnError where
  | raiseOn
  | ignoreOn
  | noPolicy
  | replace (v : PyVal)
deriving DecidableEq, Repr

/-- The observable outcome of running the `translate` generator to
exhaustion: the values yielded, in order, and the exception that
aborted the generator, if any. -/
structure TransResult where
  out : List PyVal
  exc : Option PyExc
deriving DecidableEq, Repr

/-- An association list standing for a Python dict whose values are
either an ordinal or Python `None` (the no-value sentinel). -/
abbrev PyDict := List (List Char × Option Nat)

/-- Dict lookup: a binding added later (further right) shadows an
earlier one, as successive dict assignments do.  Returns `none` when
the key is absent and `some v` when present, where `v` may itself be
the `None` sentinel. -/
def dictGet : PyDict → List Char → Option (Option Nat)
  | [], _ => none
  | (k, v) :: d, key =>
    match dictGet d key with
    | some w => some w
    | none => if k = key then some v else none

/-- Helper for `charmap`: `idx` is the running index of `enumerate`. -/
def charmapAux (offset : Nat) (skip_char : Option Char) : Nat → List Char → PyDict
  | _, [] => []
  | idx, c :: cs =>
    ([c], if skip_char = some c then none else some (idx + offset)) ::
      charmapAux offset skip_char (idx + 1) cs

/-- `charmap(chars, offset=0, skip_char=None)` (translation.py line 28):
`dict((char, (idx+offset if char!=skip_char else None)) for idx, char
in enumerate(chars))`. -/
def charmap (chars : List Char) (offset : Nat) (skip_char : Option Char) : PyDict :=
  charmapAux offset skip_char 0 chars

/-- The state of a `MapTranslation` instance after `__init__`. -/
structure MapTranslation where
  min_chars : Nat
  max_chars : Nat
  map : PyDict
  allowed_chars : List (List Char)
deriving DecidableEq, Repr

/-- `MapTranslation.__init__` (line 159): `self.allowed_chars =
map_.keys()` is captured from the base map BEFORE `extra_map` is merged
in by `self.map.update(extra_map)`; merged bindings shadow base
bindings on lookup.  An empty `extra_map` dict is falsy in Python, so
the update is skipped (which changes nothing anyway). -/
def MapTranslation.make (map_ : PyDict) (min_chars max_chars : Nat)
    (extra_map : Option PyDict) : MapTranslation :=
  { min_chars := min_chars
    max_chars := max_chars
    allowed_chars := map_.map Prod.fst
    map :=
      match extra_map with
      | some e => if e = [] then map_ else map_ ++ e
      | none => map_ }

/-- `MapTranslation.translate_chars` (line 175).  The final branch
returns `self.map.get(chars)` verbatim: a key whose dict value is the
no-value sentinel comes back as Python `None`, indistinguishable from
the pending outcome. -/
def MapTranslation.translate_chars (t : MapTranslation) (chars : List Char) : ResolveResult :=
  if chars.length < t.min_chars then .pyNone
  else if chars.length > t.max_chars then .exc (.unableToTranslate chars)
  else if chars ∈ t.allowed_chars then
    match dictGet t.map chars with
    | some (some n) => .val (.int n)
    | _ => .pyNone
  else .exc (.notInAllowed chars)

/-- The Code 128 code-set state: `self.code` is `None` or one of the
strings `'A'`, `'B'`, `'C'`. -/
inductive CodeSet where
  | A
  | B
  | C
deriving DecidableEq, Repr

namespace Code128Translation

/-- `ASCII_7BITS = ''.join(chr(i) for i in range(128))`. -/
def ASCII_7BITS : List Char := (List.range 128).map Char.ofNat

/-- `CODE_A_TABLE = ASCII_7BITS[32:96] + ASCII_7BITS[:32]`. -/
def CODE_A_TABLE : List Char := (ASCII_7BITS.drop 32).take 64 ++ ASCII_7BITS.take 32

/-- `CODE_B_TABLE = ASCII_7BITS[32:128]`. -/
def CODE_B_TABLE : List Char := ASCII_7BITS.drop 32

/-- Value of a nonempty all-digit string, as `int(s, 10)` computes it. -/
def digitsToNat (s : List Char) : Nat :=
  s.foldl (fun acc c => acc * 10 + (c.toNat - 48)) 0

/-- The characters stripped by Python 2 `int(s, 10)` (`str.strip`):
space, tab, newline, carriage return, vertical tab, form feed. -/
def isPySpace (c : Char) : Bool :=
  c == ' ' || c == '\t' || c == '\n' || c == '\r' || c == '\x0b' || c == '\x0c'

/-- Python 2 `int(s, 10)` on an arbitrary string: optional surrounding
whitespace, an optional single sign, then at least one decimal digit;
anything else raises `ValueError`, modelled as `none`. -/
def pyIntParse (s : List Char) : Option Int :=
  let stripped := ((s.dropWhile isPySpace).reverse.dropWhile isPySpace).reverse
  match stripped with
  | '+' :: ds =>
    if ds ≠ [] ∧ ds.all Char.isDigit then some (digitsToNat ds) else none
  | '-' :: ds =>
    if ds ≠ [] ∧ ds.all Char.isDigit then some (-(digitsToNat ds : Int)) else none
  | ds =>
    if ds ≠ [] ∧ ds.all Char.isDigit then some (digitsToNat ds) else none

/-- `Code128Translation.translate_chars` (line 252), with the mutable
`self.code` attribute made explicit: the result pairs the new value of
`code` with the Python outcome.

Faithfulness notes:
* `chars[1]=='^'` inspects only the second character, whatever follows.
* In the code set A/B branch the source reads
  `try: ordinal = code_table.index(chars[0]) except IndexError: raise
  TranslationError(u'%(char)s is not in code table %(code)s' ...)`;
  `str.index` signals a missing character with `ValueError`, not
  `IndexError`, so the handler never fires, the `TranslationError` at
  line 321 (`PyExc.notInCodeTable`) is unreachable, and the
  `ValueError` propagates.
* In the code set C branch, `int(''.join(chars), 10)` is `pyIntParse`;
  a pair that does not parse raises `ValueError`. -/
def translate_chars (code : Option CodeSet) (chars : List Char) :
    Option CodeSet × ResolveResult :=
  match chars with
  | [] => (code, .exc .indexError)
  | c0 :: rest =>
    if c0 = '^' then
      match rest with
      | [] => (code, .pyNone)
      | c1 :: _ =>
        if c1 = '^' then (code, .val (.int 62))
        else if rest.all Char.isDigit then
          if digitsToNat rest < 96 then (code, .pyNone)
          else if digitsToNat rest < 108 then
            ((if digitsToNat rest = 99 ∨ digitsToNat rest = 105 then some CodeSet.C
              else if digitsToNat rest = 100 ∨ digitsToNat rest = 104 then some CodeSet.B
              else if digitsToNat rest = 101 ∨ digitsToNat rest = 103 then some CodeSet.A
              else code),
             .val (.int (digitsToNat rest)))
          else (code, .exc (.badEscape rest))
        else (code, .exc (.badEscape rest))
    else
      match code with
      | some CodeSet.A =>
        (match CODE_A_TABLE.findIdx? (fun x => x == c0) with
         | some i => (code, .val (.int i))
         | none => (code, .exc .valueError))
      | some CodeSet.B =>
        (match CODE_B_TABLE.findIdx? (fun x => x == c0) with
         | some i => (code, .val (.int i))
         | none => (code, .exc .valueError))
      | some CodeSet.C =>
        if (c0 :: rest).length = 2 then
          match pyIntParse (c0 :: rest) with
          | some n => (code, .val (.int n))
          | none => (code, .exc .valueError)
        else (code, .pyNone)
      | none => (code, .pyNone)

end Code128Translation

/-- `Translation.translate` (line 78), generically over a resolver with
explicit state `σ`, run to exhaustion.  `queue` is the accumulated
lookahead; each step appends one message character, invokes the
resolver, and dispatches on the outcome exactly as the `try/except`
block and the `if ordinal ...` chain do: a caught `TranslationError`
consults `on_error` (raise / clear the queue / clear and yield the
replacement), any other exception propagates, `None` waits for the
next character, `NotImplemented` raises `TypeError`, and any other
value is yielded with the queue cleared. -/
def translateFrom {σ : Type} (resolver : σ → List Char → σ × ResolveResult)
    (on_error : OnError) : σ → List Char → List Char → TransResult
  | _, _, [] => ⟨[], none⟩
  | st, queue, c :: rest =>
    match resolver st (queue ++ [c]) with
    | (st1, ResolveResult.pyNone) => translateFrom resolver on_error st1 (queue ++ [c]) rest
    | (_, ResolveResult.notImplemented) => ⟨[], some PyExc.typeError⟩
    | (st1, ResolveResult.val v) =>
      let t := translateFrom resolver on_error st1 [] rest
      ⟨v :: t.out, t.exc⟩
    | (st1, ResolveResult.exc e) =>
      if e.isTranslationError then
        match on_error with
        | OnError.raiseOn => ⟨[], some e⟩
        | OnError.ignoreOn => translateFrom resolver on_error st1 [] rest
        | OnError.noPolicy => translateFrom resolver on_error st1 [] rest
        | OnError.replace v =>
          let t := translateFrom resolver on_error st1 [] rest
          ⟨v :: t.out, t.exc⟩
      else ⟨[], some e⟩

/-- A full `translate` call: `self.reset()` puts the resolver in its
initial state, the queue starts empty. -/
def Translation.translate {σ : Type} (resolver : σ → List Char → σ × ResolveResult)
    (init : σ) (on_error : OnError) (message : List Char) : TransResult :=
  translateFrom resolver on_error init [] message

/-- The base class resolver: `Translation.translate_chars` (line 113)
returns `NotImplemented`. -/
def baseResolver : Unit → List Char → Unit × ResolveResult :=
  fun _ _ => ((), ResolveResult.notImplemented)

/-- `Translation().translate(...)` on the abstract base class. -/
def baseTranslate (on_error : OnError) (message : List Char) : TransResult :=
  Translation.translate baseResolver () on_error message

/-- A `MapTranslation` instance as a (stateless) resolver. -/
def mapResolver (t : MapTranslation) : Unit → List Char → Unit × ResolveResult :=
  fun _ q => ((), t.translate_chars q)

/-- `MapTranslation(...).translate(message, on_error)`. -/
def mapTranslate (t : MapTranslation) (on_error : OnError) (message : List Char) : TransResult :=
  Translation.translate (mapResolver t) () on_error message

/-- `Code128Translation().translate(message, on_error)`: `reset()`
sets `self.code = None`. -/
def c128Translate (on_error : OnError) (message : List Char) : TransResult :=
  Translation.translate Code128Translation.translate_chars none on_error message

/-- The doctest instance `MapTranslation(charmap('+0123456789'))`
(line 128). -/
def cmt : MapTranslation :=
  MapTranslation.make (charmap ("+0123456789".toList) 0 none) 1 1 none

/-- A map translation with a skip character, built over the doctest map
`charmap('0*1*2*3*4', offset=100, skip_char='*')` (line 33). -/
def skipT : MapTranslation :=
  MapTranslation.make (charmap ("0*1*2*3*4".toList) 100 (some '*')) 1 1 none

/-- A map translation whose supplemental (`extra_map`) dict introduces a
key that the base map does not have. -/
def extraT : MapTranslation :=
  MapTranslation.make (charmap ("01".toList) 0 none) 1 1 (some [(['x'], some 99)])

/-! ### Driver step lemmas -/

/-- One driver step when the resolver reports pending: the queue keeps
growing. -/
theorem translateFrom_pending {σ : Type} (resolver : σ → List Char → σ × ResolveResult)
    (p : OnError) (st st1 : σ) (q : List Char) (c : Char) (rest : List Char)
    (h : resolver st (q ++ [c]) = (st1, ResolveResult.pyNone)) :
    translateFrom resolver p st q (c :: rest) = translateFrom resolver p st1 (q ++ [c]) rest := by
  simp only [translateFrom, h]

/-- One driver step when the resolver yields a value: the queue is
cleared and the value emitted. -/
theorem translateFrom_val {σ : Type} (resolver : σ → List Char → σ × ResolveResult)
    (p : OnError) (st st1 : σ) (q : List Char) (c : Char) (rest : List Char) (v : PyVal)
    (h : resolver st (q ++ [c]) = (st1, ResolveResult.val v)) :
    translateFrom resolver p st q (c :: rest) =
      ⟨v :: (translateFrom resolver p st1 [] rest).out,
       (translateFrom resolver p st1 [] rest).exc⟩ := by
  simp only [translateFrom, h]

/-- One driver step when the resolver raises a `TranslationError`: the
`on_error` policy decides — raise halts, ignore and the `None` default
clear the queue and emit nothing, a replacement value clears the queue
and is itself emitted. -/
theorem translateFrom_caught {σ : Type} (resolver : σ → List Char → σ × ResolveResult)
    (st st1 : σ) (q : List Char) (c : Char) (rest : List Char) (e : PyExc)
    (h : resolver st (q ++ [c]) = (st1, ResolveResult.exc e))
    (ht : e.isTranslationError = true) :
    translateFrom resolver OnError.raiseOn st q (c :: rest) = ⟨[], some e⟩ ∧
    translateFrom resolver OnError.ignoreOn st q (c :: rest) =
      translateFrom resolver OnError.ignoreOn st1 [] rest ∧
    translateFrom resolver OnError.noPolicy st q (c :: rest) =
      translateFrom resolver OnError.noPolicy st1 [] rest ∧
    ∀ v, translateFrom resolver (OnError.replace v) st q (c :: rest) =
      ⟨v :: (translateFrom resolver (OnError.replace v) st1 [] rest).out,
       (translateFrom resolver (OnError.replace v) st1 [] rest).exc⟩ := by
  refine ⟨?_, ?_, ?_, fun v => ?_⟩ <;> simp [translateFrom, h, ht]

/-- One driver step when the resolver raises an exception that is not a
`TranslationError`: the bare `except: raise` clause propagates it,
whatever the policy. -/
theorem translateFrom_uncaught {σ : Type} (resolver : σ → List Char → σ × ResolveResult)
    (p : OnError) (st st1 : σ) (q : List Char) (c : Char) (rest : List Char) (e : PyExc)
    (h : resolver st (q ++ [c]) = (st1, ResolveResult.exc e))
    (ht : e.isTranslationError = false) :
    translateFrom resolver p st q (c :: rest) = ⟨[], some e⟩ := by
  simp [translateFrom, h, ht]

/-! ### Claim theorems -/

/-- Claim C1 (code bug): with code set A or B active and a queue not
starting with `'^'`, a character present in the active table does
resolve to its position, but an absent character does NOT raise the
policy-filtered `TranslationError` (\"not in code table\"): `str.index`
raises `ValueError`, the handler catches only `IndexError`, so the
`ValueError` escapes the driver under every error policy.  Evaluated at
the failing input `'^103a'` (code set A, then `'a'`, which is not in
Table A): the run aborts with `ValueError` under Ignore, Raise and
Replace alike. -/
theorem c128_missing_table_char_escapes_policy :
    Code128Translation.translate_chars (some CodeSet.A) ['a'] =
      (some CodeSet.A, ResolveResult.exc PyExc.valueError) ∧
    PyExc.valueError.isTranslationError = false ∧
    c128Translate OnError.ignoreOn ("^103a".toList) =
      ⟨[PyVal.int 103], some PyExc.valueError⟩ ∧
    c128Translate OnError.raiseOn ("^103a".toList) =
      ⟨[PyVal.int 103], some PyExc.valueError⟩ ∧
    c128Translate OnError.noPolicy ("^103a".toList) =
      ⟨[PyVal.int 103], some PyExc.valueError⟩ ∧
    c128Translate (OnError.replace (PyVal.str ['#'])) ("^103a".toList) =
      ⟨[PyVal.int 103], some PyExc.valueError⟩ ∧
    Code128Translation.translate_chars (some CodeSet.A) ['A'] =
      (some CodeSet.A, ResolveResult.val (PyVal.int 33)) := by
  exact ⟨rfl, rfl, rfl, rfl, rfl, rfl, rfl⟩

/-- Claim C7: invoking `translate` on the base `Translation` class
(whose `translate_chars` returns `NotImplemented`) fails with a
`TypeError` on the first message character under every error policy;
`TypeError` is not a `TranslationError`, so Ignore and Replace cannot
suppress it. -/
theorem base_translate_raises_type_error (pol : OnError) (c : Char) (rest : List Char) :
    baseTranslate pol (c :: rest) = ⟨[], some PyExc.typeError⟩ ∧
    PyExc.typeError.isTranslationError = false :=
  ⟨rfl, rfl⟩

/-- Claim C2, counterexample: on the doctest skip map
`charmap('0*1*2*3*4', offset=100, skip_char='*')` the skip character
`'*'` is a key whose value is the no-value sentinel, yet
`translate('*')` yields the empty sequence, not `[NONE]`:
`translate_chars` returns `map.get('*')`, which is Python `None` and
is read by the driver as \"wait for next char\". -/
theorem map_skip_char_yields_nothing_cex :
    dictGet skipT.map ['*'] = some none ∧
    ['*'] ∈ skipT.allowed_chars ∧
    skipT.translate_chars ['*'] = ResolveResult.pyNone ∧
    mapTranslate skipT OnError.noPolicy ['*'] = ⟨[], none⟩ ∧
    mapTranslate skipT OnError.raiseOn ['*'] = ⟨[], none⟩ := by
  exact ⟨rfl, by decide, rfl, rfl, rfl⟩

/-- Claim C3, counterexample: the literal-caret special case inspects
only the second queue character (`chars[1]=='^'`), not the whole queue.
The queue `\"^^3\"` begins with `'^'`, has length at least 2, is not the
exact queue `\"^^\"`, and its remainder `\"^3\"` after the caret is not
all digits — by the claim it should be Unresolvable — yet it resolves
to ordinal 62. -/
theorem c128_caret_second_char_cex :
    ['^', '^', '3'] ≠ ['^', '^'] ∧
    (['^', '3'].all Char.isDigit) = false ∧
    Code128Translation.translate_chars none ['^', '^', '3'] =
      (none, ResolveResult.val (PyVal.int 62)) := by
  exact ⟨by decide, rfl, rfl⟩

/-- Claim C5, counterexample: with no code set established, a queue not
beginning with `'^'` is NOT Unresolvable: `translate_chars` falls
through both table branches and returns Python `None` (pending), so
under the Raise policy `translate('A')` and even `translate('A^103')`
finish silently with no output and no error — the characters just
accumulate in the queue. -/
theorem c128_no_code_plain_char_cex :
    Code128Translation.translate_chars none ['A'] = (none, ResolveResult.pyNone) ∧
    c128Translate OnError.raiseOn ['A'] = ⟨[], none⟩ ∧
    c128Translate OnError.raiseOn ("A^103".toList) = ⟨[], none⟩ := by
  exact ⟨rfl, rfl, rfl⟩

/-- Claim C9, counterexample: `allowed_chars` is captured from the base
map before `extra_map` is merged, so a supplemental key absent from the
base map is rejected as \"not in allowed chars\" even though it is a key
of the merged map: with base `charmap('01')` and supplemental map
`{'x': 99}`, `translate_chars('x')` raises instead of resolving to 99. -/
theorem extra_map_key_rejected_cex :
    dictGet extraT.map ['x'] = some (some 99) ∧
    extraT.translate_chars ['x'] = ResolveResult.exc (PyExc.notInAllowed ['x']) ∧
    mapTranslate extraT OnError.raiseOn ['x'] = ⟨[], some (PyExc.notInAllowed ['x'])⟩ := by
  exact ⟨rfl, rfl, rfl⟩

/-- Claim C10, counterexample: with code set C active, the two-character
queue `\"+5\"` is not all digits, yet `int('+5', 10)` succeeds, so no
exception is raised: the queue resolves to ordinal 5.  A full run:
`translate('^105+5')` yields `[105, 5]` with no error. -/
theorem c128_codeC_nondigit_cex :
    (['+', '5'].all Char.isDigit) = false ∧
    Code128Translation.translate_chars (some CodeSet.C) ['+', '5'] =
      (some CodeSet.C, ResolveResult.val (PyVal.int 5)) ∧
    c128Translate OnError.raiseOn ("^105+5".toList) =
      ⟨[PyVal.int 105, PyVal.int 5], none⟩ := by
  exact ⟨rfl, rfl, rfl⟩

/-- Claim C2, amended: whenever the queue is within bounds and is a key
of the map, `translate_chars` returns `map.get(q)` verbatim; when the
mapped value is the no-value sentinel this is Python `None` — the very
value the driver reads as \"wait for next char\" — so the sentinel is
never emitted: the driver does special-case it, by conflation with
the pending outcome, and `translate(skip)` yields `[]` under every
policy with the skip character left in the queue. -/
theorem map_sentinel_read_as_pending (t : MapTranslation) (q : List Char)
    (hmin : ¬ q.length < t.min_chars) (hmax : ¬ q.length > t.max_chars)
    (hk : q ∈ t.allowed_chars) (hv : dictGet t.map q = some none) :
    t.translate_chars q = ResolveResult.pyNone ∧
    (∀ pol, mapTranslate skipT pol ['*'] = ⟨[], none⟩) := by
  constructor
  · simp [MapTranslation.translate_chars, hmin, hmax, hk, hv]
  · intro pol; cases pol <;> rfl

/-- Witness for `map_sentinel_read_as_pending`, at the doctest skip map
and its skip character. -/
theorem map_sentinel_read_as_pending_witness :
    skipT.translate_chars ['*'] = ResolveResult.pyNone ∧
    (∀ pol, mapTranslate skipT pol ['*'] = ⟨[], none⟩) :=
  map_sentinel_read_as_pending skipT ['*'] (by decide) (by decide) (by decide) (by decide)

/-- Claim C3, amended: for a queue `'^' :: c1 :: rest`, the literal
caret special case fires whenever the SECOND character `c1` is `'^'`
(only `chars[1]` is inspected), resolving to 62; otherwise the
remainder must be all decimal digits with value `v`: a non-digit
remainder is Unresolvable (a `TranslationError`), `v < 96` stays
pending, `96 ≤ v ≤ 107` resolves to `v`, and `v > 107` is
Unresolvable. -/
theorem c128_escape_resolution (code : Option CodeSet) (c1 : Char) (rest : List Char) :
    (Code128Translation.translate_chars code ('^' :: c1 :: rest)).2 =
      (if c1 = '^' then ResolveResult.val (PyVal.int 62)
       else if (c1 :: rest).all Char.isDigit then
         (if Code128Translation.digitsToNat (c1 :: rest) < 96 then ResolveResult.pyNone
          else if Code128Translation.digitsToNat (c1 :: rest) < 108 then
            ResolveResult.val (PyVal.int (Code128Translation.digitsToNat (c1 :: rest)))
          else ResolveResult.exc (PyExc.badEscape (c1 :: rest)))
       else ResolveResult.exc (PyExc.badEscape (c1 :: rest))) := by
  by_cases h1 : c1 = '^'
  · simp [Code128Translation.translate_chars, h1]
  · simp only [Code128Translation.translate_chars, if_pos rfl, if_neg h1]
    split_ifs <;> rfl

/-- Helper for claim C5: with no code set and a non-caret first queue
character, `translate_chars` falls through both table branches and
returns Python `None`. -/
theorem c128_none_plain (c : Char) (rest : List Char) (h : c ≠ '^') :
    Code128Translation.translate_chars none (c :: rest) = (none, ResolveResult.pyNone) := by
  simp [Code128Translation.translate_chars, h]

/-- Helper for claim C5: once the queue starts with a non-caret
character and no code set is selected, the driver only ever gets
pending answers, so the whole remaining message is absorbed into the
queue and nothing is emitted. -/
theorem c128_absorb (pol : OnError) (c : Char) (h : c ≠ '^') :
    ∀ (msg q : List Char),
      translateFrom Code128Translation.translate_chars pol none (c :: q) msg = ⟨[], none⟩ := by
  intro msg
  induction msg with
  | nil => intro q; rfl
  | cons m rest ih =>
    intro q
    have hq : (c :: q) ++ [m] = c :: (q ++ [m]) := by simp
    have hres : Code128Translation.translate_chars none ((c :: q) ++ [m]) =
        (none, ResolveResult.pyNone) := by
      rw [hq]; exact c128_none_plain c (q ++ [m]) h
    rw [translateFrom_pending _ pol none none (c :: q) m rest hres, hq]
    exact ih (q ++ [m])

/-- Claim C5, amended: when no code set has been established and the
queue does not begin with `'^'`, resolution is PENDING, not
Unresolvable: `translate_chars` returns Python `None`, so no plain
character ever fails (or resolves) before a code set is selected.
Under every policy — Raise included — a message starting with a
non-caret character produces no output and no error: all its
characters, even later escapes, are silently absorbed by the growing
queue. -/
theorem c128_no_code_plain_pending (c : Char) (rest msg : List Char) (pol : OnError)
    (h : c ≠ '^') :
    Code128Translation.translate_chars none (c :: rest) = (none, ResolveResult.pyNone) ∧
    c128Translate pol (c :: msg) = ⟨[], none⟩ := by
  refine ⟨c128_none_plain c rest h, ?_⟩
  show translateFrom Code128Translation.translate_chars pol none [] (c :: msg) = ⟨[], none⟩
  have hres : Code128Translation.translate_chars none ([] ++ [c]) =
      (none, ResolveResult.pyNone) := c128_none_plain c [] h
  rw [translateFrom_pending _ pol none none [] c msg hres]
  exact c128_absorb pol c h msg []

/-- Witness for `c128_no_code_plain_pending`: the message `'Z^99'`
under the Raise policy yields nothing and raises nothing. -/
theorem c128_no_code_plain_pending_witness :
    Code128Translation.translate_chars none ['Z'] = (none, ResolveResult.pyNone) ∧
    c128Translate OnError.raiseOn ['Z', '^', '9', '9'] = ⟨[], none⟩ :=
  c128_no_code_plain_pending 'Z' [] ['^', '9', '9'] OnError.raiseOn (by decide)

/-- Claim C10, amended: with code set C active and a two-character
queue (not starting with `'^'`), the resolution applies Python
`int(q, 10)`: when the parse fails — the queue is not an optionally
signed, optionally whitespace-padded digit string — the raised
`ValueError` is not a `TranslationError`, escapes the driver's policy
handling whatever the policy, and aborts the translation; pairs such
as `'+5'` that parse despite a non-digit character resolve normally. -/
theorem c128_codeC_parse_failure (c1 c2 : Char) (rest : List Char) (pol : OnError)
    (hc : c1 ≠ '^') (h : Code128Translation.pyIntParse [c1, c2] = none) :
    Code128Translation.translate_chars (some CodeSet.C) [c1, c2] =
      (some CodeSet.C, ResolveResult.exc PyExc.valueError) ∧
    PyExc.valueError.isTranslationError = false ∧
    translateFrom Code128Translation.translate_chars pol (some CodeSet.C) [c1] (c2 :: rest) =
      ⟨[], some PyExc.valueError⟩ := by
  have h1 : Code128Translation.translate_chars (some CodeSet.C) [c1, c2] =
      (some CodeSet.C, ResolveResult.exc PyExc.valueError) := by
    simp [Code128Translation.translate_chars, hc, h]
  refine ⟨h1, rfl, ?_⟩
  exact translateFrom_uncaught _ pol (some CodeSet.C) (some CodeSet.C) [c1] c2 rest
    PyExc.valueError h1 rfl

/-- Witness for `c128_codeC_parse_failure`: in code set C the pair
`'x5'` aborts with `ValueError` even under the Ignore policy. -/
theorem c128_codeC_parse_failure_witness :
    Code128Translation.translate_chars (some CodeSet.C) ['x', '5'] =
      (some CodeSet.C, ResolveResult.exc PyExc.valueError) ∧
    PyExc.valueError.isTranslationError = false ∧
    translateFrom Code128Translation.translate_chars OnError.ignoreOn
      (some CodeSet.C) ['x'] ['5'] = ⟨[], some PyExc.valueError⟩ :=
  c128_codeC_parse_failure 'x' '5' [] OnError.ignoreOn (by decide) (by decide)

/-- Claim C6: every `TranslationError` raised by a resolver is filtered
through `on_error`: Raise propagates it immediately, halting the
sequence; Ignore and the `None` default clear the queue and emit
nothing; a replacement value clears the queue and is itself emitted,
once per failed queue.  On the doctest map, `translate('1234xx')`
yields `[2,3,4,5,'#','#']` under Replace('#'), `[2,3,4,5]` plus the
propagated error under Raise, and `[2,3,4,5]` under Ignore and the
default. -/
theorem translate_error_policy :
    (∀ (σ : Type) (resolver : σ → List Char → σ × ResolveResult) (st st1 : σ)
        (q : List Char) (c : Char) (rest : List Char) (e : PyExc),
      resolver st (q ++ [c]) = (st1, ResolveResult.exc e) → e.isTranslationError = true →
        translateFrom resolver OnError.raiseOn st q (c :: rest) = ⟨[], some e⟩ ∧
        translateFrom resolver OnError.ignoreOn st q (c :: rest) =
          translateFrom resolver OnError.ignoreOn st1 [] rest ∧
        translateFrom resolver OnError.noPolicy st q (c :: rest) =
          translateFrom resolver OnError.noPolicy st1 [] rest ∧
        ∀ v, translateFrom resolver (OnError.replace v) st q (c :: rest) =
          ⟨v :: (translateFrom resolver (OnError.replace v) st1 [] rest).out,
           (translateFrom resolver (OnError.replace v) st1 [] rest).exc⟩) ∧
    mapTranslate cmt (OnError.replace (PyVal.str ['#'])) ("1234xx".toList) =
      ⟨[PyVal.int 2, PyVal.int 3, PyVal.int 4, PyVal.int 5,
        PyVal.str ['#'], PyVal.str ['#']], none⟩ ∧
    mapTranslate cmt OnError.raiseOn ("1234xx".toList) =
      ⟨[PyVal.int 2, PyVal.int 3, PyVal.int 4, PyVal.int 5],
       some (PyExc.notInAllowed ['x'])⟩ ∧
    mapTranslate cmt OnError.ignoreOn ("1234xx".toList) =
      ⟨[PyVal.int 2, PyVal.int 3, PyVal.int 4, PyVal.int 5], none⟩ ∧
    mapTranslate cmt OnError.noPolicy ("1234xx".toList) =
      ⟨[PyVal.int 2, PyVal.int 3, PyVal.int 4, PyVal.int 5], none⟩ :=
  ⟨fun _ resolver st st1 q c rest e h ht =>
    translateFrom_caught resolver st st1 q c rest e h ht, rfl, rfl, rfl, rfl⟩

/-- Witness for `translate_error_policy`: the unknown character `'x'`
under Raise halts with the \"not in allowed chars\" error. -/
theorem translate_error_policy_witness :
    translateFrom (mapResolver cmt) OnError.raiseOn () [] ['x'] =
      ⟨[], some (PyExc.notInAllowed ['x'])⟩ :=
  (translate_error_policy.1 Unit (mapResolver cmt) () () [] 'x' []
    (PyExc.notInAllowed ['x']) rfl rfl).1

/-- Lookup in a concatenation of dicts: the right-hand (later, updated)
bindings win, the base is consulted only when the key is absent there. -/
theorem dictGet_append (d1 d2 : PyDict) (k : List Char) :
    dictGet (d1 ++ d2) k =
      (match dictGet d2 k with
       | some w => some w
       | none => dictGet d1 k) := by
  induction d1 with
  | nil => cases h : dictGet d2 k <;> simp [dictGet, h]
  | cons hd tl ih =>
    obtain ⟨k1, v1⟩ := hd
    have hstep : dictGet (((k1, v1) :: tl) ++ d2) k =
        (match dictGet (tl ++ d2) k with
         | some w => some w
         | none => if k1 = k then some v1 else none) := rfl
    rw [hstep, ih]
    cases h : dictGet d2 k <;> rfl

/-- Claim C9, amended: `extra_map` is merged on top of the base map,
but `allowed_chars` is captured from the base map BEFORE the merge, so
only a supplemental key that is also a base-map key resolves — to the
supplemental value, which overrides the base value — while a
supplemental-only key, though present in the merged map, is rejected
as an unknown unit (\"not in allowed chars\"). -/
theorem extra_map_merge_behavior (base extra : PyDict) (mn mx : Nat) (q : List Char)
    (hmin : ¬ q.length < mn) (hmax : ¬ q.length > mx) :
    (∀ n : Nat, q ∈ base.map Prod.fst → dictGet extra q = some (some n) →
      (MapTranslation.make base mn mx (some extra)).translate_chars q =
        ResolveResult.val (PyVal.int n)) ∧
    (q ∉ base.map Prod.fst →
      (MapTranslation.make base mn mx (some extra)).translate_chars q =
        ResolveResult.exc (PyExc.notInAllowed q)) := by
  constructor
  · intro n hq hx
    have hne : extra ≠ [] := by
      intro he; rw [he] at hx; exact Option.noConfusion hx
    have hget : dictGet (base ++ extra) q = some (some n) := by
      rw [dictGet_append, hx]
    simp [MapTranslation.translate_chars, MapTranslation.make, hmin, hmax, hq, hne, hget]
  · intro hq
    simp [MapTranslation.translate_chars, MapTranslation.make, hmin, hmax, hq]

/-- Witness for `extra_map_merge_behavior`: over base `charmap('01')`
with supplemental map `{'0': 50}`, the shared key `'0'` resolves to the
supplemental 50, while the fresh key `'x'` of `extraT` is rejected. -/
theorem extra_map_merge_behavior_witness :
    (MapTranslation.make (charmap ("01".toList) 0 none) 1 1
      (some [(['0'], some 50)])).translate_chars ['0'] =
        ResolveResult.val (PyVal.int 50) ∧
    (MapTranslation.make (charmap ("01".toList) 0 none) 1 1
      (some [(['x'], some 99)])).translate_chars ['q'] =
        ResolveResult.exc (PyExc.notInAllowed ['q']) :=
  ⟨(extra_map_merge_behavior (charmap ("01".toList) 0 none) [(['0'], some 50)]
      1 1 ['0'] (by decide) (by decide)).1 50 (by decide) (by decide),
   (extra_map_merge_behavior (charmap ("01".toList) 0 none) [(['x'], some 99)]
      1 1 ['q'] (by decide) (by decide)).2 (by decide)⟩

/-- Claim C4: the code-set state is mutated only by a resolving
all-digit escape whose value is a mode shift: whenever a
`translate_chars` call changes the state, the queue was
`'^'` followed by a nonempty all-digit remainder (not starting with a
second caret), the call resolved to that value, and the value and new
state are 99 or 105 with new state C, 100 or 104 with new state B, or
101 or 103 with new state A.  Contrapositively, every other outcome —
non-shift escapes, the literal caret, table lookups, digit pairs, any
pending return and any error — leaves the state unchanged. -/
theorem c128_code_state_frame (code : Option CodeSet) (chars : List Char)
    (h : (Code128Translation.translate_chars code chars).1 ≠ code) :
    ∃ rest, chars = '^' :: rest ∧ rest ≠ [] ∧
      rest.head? ≠ some '^' ∧ rest.all Char.isDigit = true ∧
      (Code128Translation.translate_chars code chars).2 =
        ResolveResult.val (PyVal.int (Code128Translation.digitsToNat rest)) ∧
      (((Code128Translation.digitsToNat rest = 99 ∨
           Code128Translation.digitsToNat rest = 105) ∧
          (Code128Translation.translate_chars code chars).1 = some CodeSet.C) ∨
       ((Code128Translation.digitsToNat rest = 100 ∨
           Code128Translation.digitsToNat rest = 104) ∧
          (Code128Translation.translate_chars code chars).1 = some CodeSet.B) ∨
       ((Code128Translation.digitsToNat rest = 101 ∨
           Code128Translation.digitsToNat rest = 103) ∧
          (Code128Translation.translate_chars code chars).1 = some CodeSet.A)) := by
  match chars with
  | [] => exact absurd rfl h
  | c0 :: rest =>
    by_cases hc : c0 = '^'
    · subst hc
      match rest with
      | [] => exact absurd rfl h
      | c1 :: t =>
        by_cases h1 : c1 = '^'
        · subst h1; exact absurd rfl h
        · by_cases hd : (c1 :: t).all Char.isDigit
          · by_cases h96 : Code128Translation.digitsToNat (c1 :: t) < 96
            · exfalso; apply h
              simp [Code128Translation.translate_chars, h1, hd, h96]
            · by_cases h108 : Code128Translation.digitsToNat (c1 :: t) < 108
              · refine ⟨c1 :: t, rfl, by simp, by simp [h1], hd, ?_, ?_⟩
                · simp [Code128Translation.translate_chars, h1, hd, h96, h108]
                · by_cases e1 : Code128Translation.digitsToNat (c1 :: t) = 99 ∨
                      Code128Translation.digitsToNat (c1 :: t) = 105
                  · exact Or.inl ⟨e1, by
                      simp [Code128Translation.translate_chars, h1, hd, h96, h108, e1]⟩
                  · by_cases e2 : Code128Translation.digitsToNat (c1 :: t) = 100 ∨
                        Code128Translation.digitsToNat (c1 :: t) = 104
                    · exact Or.inr (Or.inl ⟨e2, by
                        simp [Code128Translation.translate_chars, h1, hd, h96, h108, e1, e2]⟩)
                    · by_cases e3 : Code128Translation.digitsToNat (c1 :: t) = 101 ∨
                          Code128Translation.digitsToNat (c1 :: t) = 103
                      · exact Or.inr (Or.inr ⟨e3, by
                          simp [Code128Translation.translate_chars, h1, hd, h96, h108,
                            e1, e2, e3]⟩)
                      · exfalso; apply h
                        simp [Code128Translation.translate_chars, h1, hd, h96, h108,
                          e1, e2, e3]
              · exfalso; apply h
                simp [Code128Translation.translate_chars, h1, hd, h96, h108]
          · exfalso; apply h
            simp [Code128Translation.translate_chars, h1, hd]
    · exfalso; apply h
      rcases code with _ | cs
      · simp [Code128Translation.translate_chars, hc]
      · cases cs
        · simp only [Code128Translation.translate_chars, if_neg hc]
          cases hf : Code128Translation.CODE_A_TABLE.findIdx? (fun x => x == c0) <;>
            simp [hf]
        · simp only [Code128Translation.translate_chars, if_neg hc]
          cases hf : Code128Translation.CODE_B_TABLE.findIdx? (fun x => x == c0) <;>
            simp [hf]
        · simp only [Code128Translation.translate_chars, if_neg hc]
          by_cases hl : rest.length = 1
          · cases hp : Code128Translation.pyIntParse (c0 :: rest) <;> simp [hl, hp]
          · simp [hl]

/-- Witness for `c128_code_state_frame`: the escape `'^99'` changes the
state (to C). -/
theorem c128_code_state_frame_witness :
    ∃ rest, ['^', '9', '9'] = '^' :: rest ∧ rest ≠ [] ∧
      rest.head? ≠ some '^' ∧ rest.all Char.isDigit = true ∧
      (Code128Translation.translate_chars none ['^', '9', '9']).2 =
        ResolveResult.val (PyVal.int (Code128Translation.digitsToNat rest)) ∧
      (((Code128Translation.digitsToNat rest = 99 ∨
           Code128Translation.digitsToNat rest = 105) ∧
          (Code128Translation.translate_chars none ['^', '9', '9']).1 = some CodeSet.C) ∨
       ((Code128Translation.digitsToNat rest = 100 ∨
           Code128Translation.digitsToNat rest = 104) ∧
          (Code128Translation.translate_chars none ['^', '9', '9']).1 = some CodeSet.B) ∨
       ((Code128Translation.digitsToNat rest = 101 ∨
           Code128Translation.digitsToNat rest = 103) ∧
          (Code128Translation.translate_chars none ['^', '9', '9']).1 = some CodeSet.A)) :=
  c128_code_state_frame none ['^', '9', '9'] (by decide)

/-- Helper for claim C8: a character that does not occur in the
alphabet suffix has no binding in the corresponding dict fragment. -/
theorem dictGet_charmapAux_not_mem (off : Nat) (skip : Option Char) (c : Char) :
    ∀ (ys : List Char) (i : Nat), c ∉ ys → dictGet (charmapAux off skip i ys) [c] = none := by
  intro ys
  induction ys with
  | nil => intro i _; rfl
  | cons y ys ih =>
    intro i hc
    have hy : ¬ [y] = [c] := by
      intro hyc
      exact hc (by simp_all)
    have hys : c ∉ ys := fun hm => hc (List.mem_cons_of_mem _ hm)
    simp only [charmapAux, dictGet, ih (i + 1) hys]
    simp [hy]

/-- Helper for claim C8: looking up a character whose LAST occurrence in
the alphabet is at position `xs.length` (counting from the start index
`i`) finds the value assigned at that occurrence — later dict
assignments overwrite earlier ones. -/
theorem dictGet_charmapAux_last (off : Nat) (skip : Option Char) (c : Char)
    (ys : List Char) (hys : c ∉ ys) :
    ∀ (xs : List Char) (i : Nat),
      dictGet (charmapAux off skip i (xs ++ c :: ys)) [c] =
        some (if skip = some c then none else some (i + xs.length + off)) := by
  intro xs
  induction xs with
  | nil =>
    intro i
    simp only [List.nil_append, charmapAux, dictGet,
      dictGet_charmapAux_not_mem off skip c ys (i + 1) hys]
    simp
  | cons x xs ih =>
    intro i
    have hstep : dictGet (charmapAux off skip i ((x :: xs) ++ c :: ys)) [c] =
        (match dictGet (charmapAux off skip (i + 1) (xs ++ c :: ys)) [c] with
         | some w => some w
         | none => if [x] = [c] then
             some (if skip = some x then none else some (i + off)) else none) := rfl
    rw [hstep, ih (i + 1)]
    have harith : i + 1 + xs.length = i + (xs.length + 1) := by omega
    simp [harith]

/-- Claim C8: `charmap(alphabet, offset, skip)` maps the character at
position `n` to `offset + n`, except the skip character, which maps to
the no-value sentinel regardless of position; when a character occurs
more than once, the binding of its last occurrence wins; and for an
alphabet of pairwise-distinct characters with no skip character the map
is injective, sending each character to its position plus the offset. -/
theorem charmap_spec :
    (∀ (off : Nat) (skip : Option Char) (xs ys : List Char) (c : Char), c ∉ ys →
      dictGet (charmap (xs ++ c :: ys) off skip) [c] =
        some (if skip = some c then none else some (xs.length + off))) ∧
    (∀ (off : Nat) (chars : List Char), chars.Nodup →
      ∀ (i : Nat) (hi : i < chars.length),
        dictGet (charmap chars off none) [chars.get ⟨i, hi⟩] = some (some (i + off))) ∧
    (∀ (off : Nat) (chars : List Char), chars.Nodup →
      ∀ (i : Nat) (hi : i < chars.length) (j : Nat) (hj : j < chars.length),
        dictGet (charmap chars off none) [chars.get ⟨i, hi⟩] =
          dictGet (charmap chars off none) [chars.get ⟨j, hj⟩] → i = j) := by
  have part1 : ∀ (off : Nat) (skip : Option Char) (xs ys : List Char) (c : Char), c ∉ ys →
      dictGet (charmap (xs ++ c :: ys) off skip) [c] =
        some (if skip = some c then none else some (xs.length + off)) := by
    intro off skip xs ys c h
    have := dictGet_charmapAux_last off skip c ys h xs 0
    simpa [charmap] using this
  have part2 : ∀ (off : Nat) (chars : List Char), chars.Nodup →
      ∀ (i : Nat) (hi : i < chars.length),
        dictGet (charmap chars off none) [chars.get ⟨i, hi⟩] = some (some (i + off)) := by
    intro off chars hnd i hi
    have hsplit : chars = chars.take i ++ chars.get ⟨i, hi⟩ :: chars.drop (i + 1) := by
      rw [List.get_eq_getElem, ← List.drop_eq_getElem_cons hi, List.take_append_drop]
    have hmem : chars.get ⟨i, hi⟩ ∉ chars.drop (i + 1) := by
      intro hm
      obtain ⟨j, hj, hjeq⟩ := List.mem_iff_getElem.mp hm
      have hjlt : i + 1 + j < chars.length := by
        rw [List.length_drop] at hj; omega
      rw [List.getElem_drop] at hjeq
      rw [List.get_eq_getElem] at hjeq
      have := (@List.Nodup.getElem_inj_iff _ chars hnd (i + 1 + j) hjlt i hi).mp hjeq
      omega
    have hlen : (chars.take i).length = i := by
      rw [List.length_take]; omega
    calc dictGet (charmap chars off none) [chars.get ⟨i, hi⟩]
        = dictGet (charmap (chars.take i ++ chars.get ⟨i, hi⟩ :: chars.drop (i + 1))
            off none) [chars.get ⟨i, hi⟩] := by rw [← hsplit]
      _ = some (some ((chars.take i).length + off)) := by
          rw [part1 off none (chars.take i) (chars.drop (i + 1)) (chars.get ⟨i, hi⟩) hmem]
          simp
      _ = some (some (i + off)) := by rw [hlen]
  refine ⟨part1, part2, ?_⟩
  intro off chars hnd i hi j hj heq
  rw [part2 off chars hnd i hi, part2 off chars hnd j hj] at heq
  simp only [Option.some.injEq] at heq
  omega

/-- Witness for `charmap_spec`, on the doctest map
`charmap('0*1*2*3*4', offset=100, skip_char='*')` — `'1'` (last
occurrence at position 2) maps to 102, `'*'` (skip) maps to the
sentinel — and on the plain digit alphabet with offset 1, where
position 3 holds `'3'` mapping to 4. -/
theorem charmap_spec_witness :
    dictGet (charmap (['0', '*'] ++ '1' :: "*2*3*4".toList) 100 (some '*')) ['1'] =
      some (some 102) ∧
    dictGet (charmap ("0*1*2*3".toList ++ '*' :: ['4']) 100 (some '*')) ['*'] =
      some none ∧
    dictGet (charmap ("0123456789".toList) 1 none)
      [("0123456789".toList).get ⟨3, by decide⟩] = some (some 4) := by
  refine ⟨?_, ?_, ?_⟩
  · exact charmap_spec.1 100 (some '*') ['0', '*'] ("*2*3*4".toList) '1' (by decide)
  · exact charmap_spec.1 100 (some '*') ("0*1*2*3".toList) ['4'] '*' (by decide)
  · exact charmap_spec.2.1 1 ("0123456789".toList) (by decide) 3 (by decide)

